import Mathlib

/-!
Verification of the bitlum exchange GraphQL client's authenticated request
transport layer: the error-envelope formatter (`responseBase.Error`), the
credential-attaching request builders (`graphqlBackend.do`, `graphQLCore.do`),
client construction (`NewClient`) and the operation-layer error paths
(`Client.Accounts`, `Client.Order`, `Client.Tickers`), shallowly embedded
from the Go source.
-/

namespace BitlumClient

/-! ## Data model -/

/-- `responseErrorLocation` from backend.go: a source location attached to a
server-side GraphQL error. Go `int` fields are modelled as `Int`. -/
structure ResponseErrorLocation where
  line : Int
  column : Int
deriving DecidableEq, Repr

/-- `responseError` from backend.go: one structured server-side error. -/
structure ResponseError where
  message : String
  locations : List ResponseErrorLocation
deriving DecidableEq, Repr

/-- Bytes of a request or response body (`[]byte` in Go). -/
abbrev Bytes := List Nat

/-! ## Error envelope formatter (`responseBase.Error`, backend.go lines 88-114) -/

/-- The body of the `for i, l := range e.Locations` loop in
`responseBase.Error`: on every iteration past the first, `", "` is appended
before the formatted `line:column` pair. -/
def locsLoop : Nat → List ResponseErrorLocation → String → String
  | _, [], msg => msg
  | i, l :: ls, msg =>
    locsLoop (i + 1) ls
      ((if 0 < i then msg ++ ", " else msg) ++
        toString l.line ++ ":" ++ toString l.column)

/-- `responseBase.Error` from backend.go (a pure function of the decoded
`Errors` list; `nil` is modelled as `none`, a non-nil `errors.New(msg)` as
`some msg`). -/
def responseBase_Error (errs : List ResponseError) : Option String :=
  match errs with
  | [] => none
  | e :: rest =>
    let msg := e.message
    let msg :=
      match e.locations with
      | [] => msg
      | [l] => msg ++ ", location: " ++ toString l.line ++ ":" ++ toString l.column
      | l1 :: l2 :: ls => locsLoop 0 (l1 :: l2 :: ls) (msg ++ ", locations: ")
    let msg :=
      if 1 < (e :: rest).length then
        toString (e :: rest).length ++ " errors occurred, first one is: " ++ msg
      else msg
    some msg

/-! ## Reference formatter, written from the specification's words -/

/-- `"<line>:<column>"` for one location. -/
def fmtLoc (l : ResponseErrorLocation) : String :=
  toString l.line ++ ":" ++ toString l.column

/-- Comma-space separated join, in original order. -/
def commaSpaceJoined : List String → String
  | [] => ""
  | [s] => s
  | s :: s2 :: rest => s ++ ", " ++ commaSpaceJoined (s2 :: rest)

/-- One formatted error, per the spec: zero locations gives the text
verbatim; one location gives `"<text>, location: <line>:<column>"`; more
give `"<text>, locations: <l1>:<c1>, <l2>:<c2>, ..."`. -/
def fmtOneSpec (e : ResponseError) : String :=
  match e.locations with
  | [] => e.message
  | [l] => e.message ++ ", location: " ++ fmtLoc l
  | _ :: _ :: _ => e.message ++ ", locations: " ++ commaSpaceJoined (e.locations.map fmtLoc)

/-- The reference error-envelope formatter, written from the specification's
words: empty list gives no error; one error is formatted by `fmtOneSpec`;
N>1 errors give `"<N> errors occurred, first one is: <first formatted>"`,
errors beyond the first not individually rendered. -/
def extractErrorSpec (errs : List ResponseError) : Option String :=
  match errs with
  | [] => none
  | [e] => some (fmtOneSpec e)
  | e :: rest => some (toString (e :: rest).length ++ " errors occurred, first one is: " ++ fmtOneSpec e)

/-- The tail of a comma-space join: each element preceded by `", "`. -/
def locsJoinTail : List ResponseErrorLocation → String
  | [] => ""
  | l :: ls => ", " ++ fmtLoc l ++ locsJoinTail ls

theorem locsLoop_pos (ls : List ResponseErrorLocation) :
    ∀ (i : Nat) (acc : String), locsLoop (i + 1) ls acc = acc ++ locsJoinTail ls := by
  induction ls with
  | nil => intro i acc; simp [locsLoop, locsJoinTail]
  | cons l ls ih =>
    intro i acc
    simp only [locsLoop, locsJoinTail, Nat.zero_lt_succ, if_pos]
    rw [ih]
    simp [fmtLoc, String.append_assoc]

theorem locsLoop_zero (l : ResponseErrorLocation) (ls : List ResponseErrorLocation)
    (acc : String) :
    locsLoop 0 (l :: ls) acc = acc ++ fmtLoc l ++ locsJoinTail ls := by
  show locsLoop (0 + 1) ls
      ((if 0 < 0 then acc ++ ", " else acc) ++ toString l.line ++ ":" ++ toString l.column) =
    acc ++ fmtLoc l ++ locsJoinTail ls
  rw [if_neg (Nat.lt_irrefl 0), locsLoop_pos]
  simp [fmtLoc, String.append_assoc]

/-- The tail of a comma-space join of strings. -/
def commaTail : List String → String
  | [] => ""
  | s :: ss => ", " ++ s ++ commaTail ss

theorem commaSpaceJoined_cons (s : String) (ss : List String) :
    commaSpaceJoined (s :: ss) = s ++ commaTail ss := by
  induction ss generalizing s with
  | nil => simp [commaSpaceJoined, commaTail]
  | cons s2 ss ih =>
    simp only [commaSpaceJoined, commaTail]
    rw [ih]
    simp [String.append_assoc]

theorem locsJoinTail_eq (ls : List ResponseErrorLocation) :
    locsJoinTail ls = commaTail (ls.map fmtLoc) := by
  induction ls with
  | nil => rfl
  | cons l ls ih => simp [locsJoinTail, commaTail, ih]

/-- C2: the error envelope formatter `responseBase.Error` agrees with the
reference definition `extractErrorSpec`, built from the specification's
words, on every input list of response errors. -/
theorem c2_error_formatter_refines_spec (errs : List ResponseError) :
    responseBase_Error errs = extractErrorSpec errs := by
  rcases errs with _ | ⟨⟨m, locs⟩, rest⟩
  · rfl
  · rcases rest with _ | ⟨e2, rest⟩ <;> rcases locs with _ | ⟨l1, _ | ⟨l2, ls⟩⟩ <;>
      simp [responseBase_Error, extractErrorSpec, fmtOneSpec, locsLoop_zero,
        locsJoinTail_eq, commaSpaceJoined_cons, commaTail, fmtLoc, String.append_assoc]

/-! ## Request, transport state and external collaborators -/

/-- The `variables` field of a request: an arbitrary serializable value,
opaque to the transport (`interface\x7b\x7d` in Go). -/
inductive VarsVal where
  | tickersVars (markets : List String)
  | accountsVars (assets : List String)
  | raw (s : String)
deriving DecidableEq, Repr

/-- `request` from backend.go: the GraphQL request envelope (`Query` and
`Variables`; the latter is named `vars` here because `variables` is a
reserved word). -/
structure Request where
  query : String
  vars : VarsVal
deriving DecidableEq, Repr

/-- An opaque value standing for `*macaroon.Macaroon` from the external
macaroon library (owned by the credential manager, never inspected by the
client code itself). -/
inductive MacVal where
  | root (id : Nat)
deriving DecidableEq, Repr

/-- `graphQLCore` from query_accounts.go (capability-token generation):
endpoint URL, root macaroon pointer (nullable, hence `Option`), the
replay-protection nonce counter (`int64`) and the optional JWT override. -/
structure CoreState where
  url : String
  macaroon : Option MacVal
  nonce : Int
  jwt : String
deriving DecidableEq, Repr

/-- `graphqlBackend` from backend.go (bearer-token generation). -/
structure BackendState where
  url : String
  authToken : String
deriving DecidableEq, Repr

/-- An outgoing HTTP request under construction: `http.NewRequest` returns a
request with an empty header map, and the client then sets headers on it. -/
structure HttpReq where
  method : String
  url : String
  body : Bytes
  headers : List (String × String)
deriving DecidableEq, Repr

/-- `http.Header.Set`: replaces any existing value for the key. -/
def setHeader (q : HttpReq) (k v : String) : HttpReq :=
  { q with headers := q.headers.filter (fun p => p.1 ≠ k) ++ [(k, v)] }

/-- `http.Header.Get`: the value set for the key, if any. -/
def getHeader (q : HttpReq) (k : String) : Option String :=
  match q.headers.find? (fun p => p.1 = k) with
  | some p => some p.2
  | none => none

/-- The response produced by the HTTP round trip: status code, status text
(Go's `http.Response.Status`, e.g. `"301 Moved Permanently"`), and the
outcome of reading the body to completion (`ioutil.ReadAll`). -/
structure HttpResp where
  statusCode : Nat
  status : String
  bodyRead : Except String Bytes

/-- The external collaborators of one call to `do`: JSON marshalling,
`http.NewRequest` fallibility, the macaroon-application-auth library
(`AddNonce`, `AddCurrentTime`, `EncodeMacaroon`) and the HTTP client. -/
structure DoEnv where
  marshal : Request → Except String Bytes
  newRequestFails : String → Bytes → Option String
  addNonce : Option MacVal → Int → Except String MacVal
  addCurrentTime : MacVal → Except String MacVal
  encodeMacaroon : MacVal → Except String String
  send : HttpReq → Except String HttpResp

/-- Two's-complement wrap of Go's `int64` increment. -/
def wrap64 (n : Int) : Int := (n + 2 ^ 63) % 2 ^ 64 - 2 ^ 63

/-- The request `http.NewRequest("POST", url, body)` yields on success: a
POST with an empty header map. -/
def buildHttpRequest (url : String) (body : Bytes) : HttpReq :=
  ⟨"POST", url, body, []⟩

/-! ## `graphQLCore.do` (query_accounts.go lines 223-289, capability-token
generation) -/

/-- The request-building phase of `graphQLCore.do`: marshal the request,
build the POST, and attach credentials — when `jwt` is empty, increment the
nonce, add the nonce caveat, add the current-time caveat, encode the
macaroon and set `Content-Type` and `Authorization: Macaroon <token>`;
otherwise set `Authorization: Bearer <jwt>` only. Returns the updated core
state alongside the built request or the error. -/
def graphQLCore_buildRequest (env : DoEnv) (c : CoreState) (r : Request) :
    CoreState × Except String HttpReq :=
  match env.marshal r with
  | .error e => (c, .error ("failed to json.Marshal request: " ++ e))
  | .ok reqJSON =>
    match env.newRequestFails c.url reqJSON with
    | some e => (c, .error ("failed to http.NewRequest: " ++ e))
    | none =>
      let httpReq := buildHttpRequest c.url reqJSON
      if c.jwt = "" then
        let c' := { c with nonce := wrap64 (c.nonce + 1) }
        match env.addNonce c.macaroon c'.nonce with
        | .error e => (c', .error ("failed to add nonce to macaroon: " ++ e))
        | .ok m =>
          match env.addCurrentTime m with
          | .error e => (c', .error ("failed to add current time to macaroon: " ++ e))
          | .ok m2 =>
            match env.encodeMacaroon m2 with
            | .error e => (c', .error ("failed to encode macaroon: " ++ e))
            | .ok token =>
              (c', .ok (setHeader
                (setHeader httpReq "Content-Type" "application/json")
                "Authorization" ("Macaroon " ++ token)))
      else
        (c, .ok (setHeader httpReq "Authorization" ("Bearer " ++ c.jwt)))

/-- Status validation and body read, shared verbatim by `graphqlBackend.do`
(backend.go lines 52-63) and `graphQLCore.do` (query_accounts.go lines
277-288): non-200 yields the status error without needing the body; on 200
the fully read body is returned unparsed, or the read error. -/
def handleResponse (resp : HttpResp) : Except String Bytes :=
  if resp.statusCode ≠ 200 then
    .error ("unexpected response status: " ++ resp.status)
  else
    match resp.bodyRead with
    | .error e => .error ("failed to read response body: " ++ e)
    | .ok body => .ok body

/-- `graphQLCore.do`: build the authorized request, send it, and handle the
response. -/
def graphQLCore_do (env : DoEnv) (c : CoreState) (r : Request) :
    CoreState × Except String Bytes :=
  match graphQLCore_buildRequest env c r with
  | (c', .error e) => (c', .error e)
  | (c', .ok q) =>
    match env.send q with
    | .error e => (c', .error ("failed to do http request: " ++ e))
    | .ok resp => (c', handleResponse resp)

/-! ## `graphqlBackend.do` (backend.go lines 26-64, bearer-token generation) -/

/-- The request-building phase of `graphqlBackend.do`: marshal, build the
POST, set `Content-Type: application/json` and
`Authorization: Bearer <authToken>` unconditionally. -/
def graphqlBackend_buildRequest (env : DoEnv) (b : BackendState) (r : Request) :
    Except String HttpReq :=
  match env.marshal r with
  | .error e => .error ("failed to json.Marshal request: " ++ e)
  | .ok reqJSON =>
    match env.newRequestFails b.url reqJSON with
    | some e => .error ("failed to http.NewRequest: " ++ e)
    | none =>
      .ok (setHeader
        (setHeader (buildHttpRequest b.url reqJSON) "Content-Type" "application/json")
        "Authorization" ("Bearer " ++ b.authToken))

/-- `graphqlBackend.do`: build the request, send it, handle the response. -/
def graphqlBackend_do (env : DoEnv) (b : BackendState) (r : Request) :
    Except String Bytes :=
  match graphqlBackend_buildRequest env b r with
  | .error e => .error e
  | .ok q =>
    match env.send q with
    | .error e => .error ("failed to do http request: " ++ e)
    | .ok resp => handleResponse resp

/-! ## `NewClient` (capability-token generation) -/

/-- `NewClient(url, macaroon, jwt)`: when the macaroon string is non-empty it
is decoded by the external `auth.DecodeMacaroon`; a decode failure is
returned immediately and no client is produced (`Except.error` carries no
`CoreState`). Otherwise the core is built with the decoded macaroon (or
none), the jwt, and the nonce at its zero value. -/
def NewClient (decodeMacaroon : String → Except String MacVal)
    (url mac jwt : String) : Except String CoreState :=
  if mac ≠ "" then
    match decodeMacaroon mac with
    | .error e => .error e
    | .ok m => .ok ⟨url, some m, 0, jwt⟩
  else
    .ok ⟨url, none, 0, jwt⟩

/-! ## Header lemmas -/

theorem find?_filter_append_self (k v : String) (hs : List (String × String)) :
    (hs.filter (fun p => p.1 ≠ k) ++ [(k, v)]).find? (fun p => p.1 = k) = some (k, v) := by
  induction hs with
  | nil => simp [List.find?]
  | cons p hs ih =>
    by_cases h : p.1 = k
    · simp [List.filter_cons, h, ih]
    · simp [List.filter_cons, h, List.find?, ih]

theorem getHeader_setHeader_same (q : HttpReq) (k v : String) :
    getHeader (setHeader q k v) k = some v := by
  show (match (q.headers.filter (fun p => p.1 ≠ k) ++ [(k, v)]).find?
      (fun p => p.1 = k) with
    | some p => some p.2
    | none => none) = some v
  rw [find?_filter_append_self]

/-! ## Spec-modelled per-call authenticated transport -/

/-- Modelled from the spec: the newest-generation core implementation
`graphQLCore.do(authenticated bool, r request)` is not under src (only its
operation-layer callers and its tests are present there). Per the spec's
Transport contract: serialize the request, build an HTTP POST with header
`Content-Type: application/json`; if `authenticated` is true, obtain a fresh
authorization header value from the Credential Manager (`authHeader`) and
set header `Authorization`; if false, omit auth. -/
def transportDo_buildRequest (env : DoEnv)
    (authHeader : CoreState → CoreState × Except String String)
    (c : CoreState) (authenticated : Bool) (r : Request) :
    CoreState × Except String HttpReq :=
  match env.marshal r with
  | .error e => (c, .error ("failed to json.Marshal request: " ++ e))
  | .ok reqJSON =>
    match env.newRequestFails c.url reqJSON with
    | some e => (c, .error ("failed to http.NewRequest: " ++ e))
    | none =>
      let q := setHeader (buildHttpRequest c.url reqJSON)
        "Content-Type" "application/json"
      if authenticated then
        match authHeader c with
        | (c', .error e) => (c', .error e)
        | (c', .ok v) => (c', .ok (setHeader q "Authorization" v))
      else
        (c, .ok q)

/-! ## Claim theorems: C3, C5, C6, C7, C8 -/

/-- C3: for every HTTP response received by the transport's `do`: a non-200
status yields the status error, and the same error whatever the body read
would have produced (the body is not required to be read); a 200 status
yields the fully read body unparsed, with an error exactly when the body
cannot be fully read. The `do` implementations route every received
response through `handleResponse`. -/
theorem c3_status_and_body_handling
    (code : Nat) (st : String) (br br2 : Except String Bytes) (bs : Bytes)
    (e : String) (env : DoEnv) (c c' : CoreState) (b : BackendState)
    (r : Request) (q : HttpReq) (resp : HttpResp) :
    (code ≠ 200 →
      handleResponse ⟨code, st, br⟩ =
        .error ("unexpected response status: " ++ st)
      ∧ handleResponse ⟨code, st, br⟩ = handleResponse ⟨code, st, br2⟩)
    ∧ handleResponse ⟨200, st, .ok bs⟩ = .ok bs
    ∧ handleResponse ⟨200, st, .error e⟩ =
        .error ("failed to read response body: " ++ e)
    ∧ (graphQLCore_buildRequest env c r = (c', .ok q) →
        env.send q = .ok resp →
        graphQLCore_do env c r = (c', handleResponse resp))
    ∧ (graphqlBackend_buildRequest env b r = .ok q →
        env.send q = .ok resp →
        graphqlBackend_do env b r = handleResponse resp) := by
  refine ⟨fun h => ⟨?_, ?_⟩, ?_, ?_, fun h1 h2 => ?_, fun h1 h2 => ?_⟩
  · simp [handleResponse, h]
  · simp [handleResponse, h]
  · simp [handleResponse]
  · simp [handleResponse]
  · simp [graphQLCore_do, h1, h2]
  · simp [graphqlBackend_do, h1, h2]

/-- Demonstration environment used by witnesses: every external collaborator
succeeds. -/
def demoEnv : DoEnv where
  marshal := fun _ => .ok [7]
  newRequestFails := fun _ _ => none
  addNonce := fun _ _ => .ok (.root 1)
  addCurrentTime := fun m => .ok m
  encodeMacaroon := fun _ => .ok "tok"
  send := fun _ => .ok ⟨200, "200 OK", .ok [1, 2]⟩

/-- A demonstration request. -/
def demoReq : Request := ⟨"query", .raw "v"⟩

theorem c3_status_and_body_handling_witness :
    handleResponse ⟨301, "301 Moved Permanently", .ok [1]⟩ =
      .error "unexpected response status: 301 Moved Permanently"
    ∧ handleResponse ⟨200, "200 OK", .ok [1, 2]⟩ = .ok [1, 2]
    ∧ handleResponse ⟨200, "200 OK", .error "gone"⟩ =
      .error "failed to read response body: gone" := by
  have h := c3_status_and_body_handling 301 "301 Moved Permanently"
    (.ok [1]) (.error "x") [1, 2] "gone" demoEnv ⟨"u", none, 0, ""⟩
    ⟨"u", none, 0, ""⟩ ⟨"u", "t"⟩ demoReq (buildHttpRequest "u" [7])
    ⟨200, "200 OK", .ok [1, 2]⟩
  exact ⟨(h.1 (by decide)).1, h.2.1, h.2.2.1⟩

/-- C5: in the capability-token variant the derived token is the
serialization of the root capability with the nonce caveat attached first
(at the freshly incremented nonce) and the current-time caveat attached
second, and the `Authorization` header is exactly `"Macaroon " ++ token`;
in the bearer/JWT variants the `Authorization` header is exactly
`"Bearer " ++ token`. -/
theorem c5_credential_header_shape
    (env : DoEnv) (c : CoreState) (r : Request) (j : Bytes)
    (m1 m2 : MacVal) (tok : String) (b : BackendState)
    (hm : env.marshal r = .ok j)
    (hn : env.newRequestFails c.url j = none) :
    (c.jwt = "" →
      env.addNonce c.macaroon (wrap64 (c.nonce + 1)) = .ok m1 →
      env.addCurrentTime m1 = .ok m2 →
      env.encodeMacaroon m2 = .ok tok →
      ∃ q, (graphQLCore_buildRequest env c r).2 = .ok q ∧
        getHeader q "Authorization" = some ("Macaroon " ++ tok))
    ∧ (c.jwt ≠ "" →
      ∃ q, (graphQLCore_buildRequest env c r).2 = .ok q ∧
        getHeader q "Authorization" = some ("Bearer " ++ c.jwt))
    ∧ (env.newRequestFails b.url j = none →
      ∃ q, graphqlBackend_buildRequest env b r = .ok q ∧
        getHeader q "Authorization" = some ("Bearer " ++ b.authToken)) := by
  refine ⟨fun hj h1 h2 h3 => ?_, fun hj => ?_, fun hb => ?_⟩
  · refine ⟨setHeader (setHeader (buildHttpRequest c.url j)
        "Content-Type" "application/json") "Authorization" ("Macaroon " ++ tok),
      ?_, getHeader_setHeader_same _ _ _⟩
    simp [graphQLCore_buildRequest, hm, hn, hj, h1, h2, h3]
  · refine ⟨setHeader (buildHttpRequest c.url j)
        "Authorization" ("Bearer " ++ c.jwt),
      ?_, getHeader_setHeader_same _ _ _⟩
    simp [graphQLCore_buildRequest, hm, hn, hj]
  · refine ⟨setHeader (setHeader (buildHttpRequest b.url j)
        "Content-Type" "application/json") "Authorization" ("Bearer " ++ b.authToken),
      ?_, getHeader_setHeader_same _ _ _⟩
    simp [graphqlBackend_buildRequest, hm, hb]

theorem c5_credential_header_shape_witness :
    (∃ q, (graphQLCore_buildRequest demoEnv ⟨"u", some (.root 0), 0, ""⟩ demoReq).2 = .ok q ∧
      getHeader q "Authorization" = some ("Macaroon " ++ "tok"))
    ∧ (∃ q, (graphQLCore_buildRequest demoEnv ⟨"u", none, 0, "jay"⟩ demoReq).2 = .ok q ∧
      getHeader q "Authorization" = some ("Bearer " ++ "jay"))
    ∧ (∃ q, graphqlBackend_buildRequest demoEnv ⟨"u", "legacy"⟩ demoReq = .ok q ∧
      getHeader q "Authorization" = some ("Bearer " ++ "legacy")) := by
  have h1 := c5_credential_header_shape demoEnv ⟨"u", some (.root 0), 0, ""⟩
    demoReq [7] (.root 1) (.root 1) "tok" ⟨"u", "legacy"⟩ rfl rfl
  have h2 := c5_credential_header_shape demoEnv ⟨"u", none, 0, "jay"⟩
    demoReq [7] (.root 1) (.root 1) "tok" ⟨"u", "legacy"⟩ rfl rfl
  exact ⟨h1.1 rfl rfl rfl rfl, h2.2.1 (by decide), h1.2.2 rfl⟩

/-- C6: whether a request carries a credential is controlled by the caller
per call: an unauthenticated call omits the `Authorization` header (and the
credential state is untouched), while an authenticated call obtains a fresh
authorization header value from the Credential Manager and sets it. -/
theorem c6_per_call_authentication
    (env : DoEnv) (authHeader : CoreState → CoreState × Except String String)
    (c : CoreState) (r : Request) (j : Bytes)
    (hm : env.marshal r = .ok j)
    (hn : env.newRequestFails c.url j = none) :
    (transportDo_buildRequest env authHeader c false r =
        (c, .ok (setHeader (buildHttpRequest c.url j)
          "Content-Type" "application/json"))
      ∧ getHeader (setHeader (buildHttpRequest c.url j)
          "Content-Type" "application/json") "Authorization" = none)
    ∧ (∀ c' v, authHeader c = (c', .ok v) →
      ∃ q, transportDo_buildRequest env authHeader c true r = (c', .ok q) ∧
        getHeader q "Authorization" = some v) := by
  refine ⟨⟨?_, rfl⟩, fun c' v hv => ?_⟩
  · simp [transportDo_buildRequest, hm, hn]
  · refine ⟨setHeader (setHeader (buildHttpRequest c.url j)
        "Content-Type" "application/json") "Authorization" v,
      ?_, getHeader_setHeader_same _ _ _⟩
    simp [transportDo_buildRequest, hm, hn, hv]

/-- A demonstration credential manager for the C6 witness: advances the
nonce and returns a macaroon header. -/
def demoAuthHeader (c : CoreState) : CoreState × Except String String :=
  ({ c with nonce := c.nonce + 1 }, .ok "Macaroon tok")

theorem c6_per_call_authentication_witness :
    (transportDo_buildRequest demoEnv demoAuthHeader ⟨"u", some (.root 0), 0, ""⟩ false demoReq =
      (⟨"u", some (.root 0), 0, ""⟩, .ok (setHeader (buildHttpRequest "u" [7])
        "Content-Type" "application/json")))
    ∧ (∃ q, transportDo_buildRequest demoEnv demoAuthHeader ⟨"u", some (.root 0), 0, ""⟩ true demoReq =
        (⟨"u", some (.root 0), 1, ""⟩, .ok q) ∧
      getHeader q "Authorization" = some "Macaroon tok") := by
  have h := c6_per_call_authentication demoEnv demoAuthHeader
    ⟨"u", some (.root 0), 0, ""⟩ demoReq [7] rfl rfl
  exact ⟨h.1.1, h.2 ⟨"u", some (.root 0), 1, ""⟩ "Macaroon tok" rfl⟩

/-- The core state for the C7 failing input: a JWT is configured, so
`graphQLCore.do` takes the Bearer branch. -/
def c7State : CoreState := ⟨"u", none, 0, "tok"⟩

/-- The request `graphQLCore.do` builds on the C7 failing input. -/
def c7BuiltReq : HttpReq :=
  setHeader (buildHttpRequest "u" [7]) "Authorization" "Bearer tok"

/-- C7 (code bug): on the Bearer/JWT branch of the capability-token
generation's `graphQLCore.do`, the built POST carries no
`Content-Type: application/json` header — the header is set only inside the
macaroon branch, although the spec (and the sibling `graphqlBackend.do`,
which sets it unconditionally) requires it on every POST. -/
theorem c7_jwt_branch_lacks_content_type :
    (graphQLCore_buildRequest demoEnv c7State demoReq).2 = .ok c7BuiltReq
    ∧ getHeader c7BuiltReq "Content-Type" = none
    ∧ getHeader c7BuiltReq "Authorization" = some "Bearer tok"
    ∧ (∃ q, graphqlBackend_buildRequest demoEnv ⟨"u", "tok"⟩ demoReq = .ok q ∧
        getHeader q "Content-Type" = some "application/json") := by
  refine ⟨rfl, rfl, rfl, ⟨_, rfl, rfl⟩⟩

/-- C8: for every non-empty macaroon string that the external decoder
rejects, `NewClient` returns the decode error immediately and produces no
client value. -/
theorem c8_new_client_rejects_bad_macaroon
    (decode : String → Except String MacVal) (url mac jwt e : String)
    (hne : mac ≠ "") (hd : decode mac = .error e) :
    NewClient decode url mac jwt = .error e
    ∧ ∀ c, NewClient decode url mac jwt ≠ .ok c := by
  have h : NewClient decode url mac jwt = .error e := by
    simp [NewClient, hne, hd]
  exact ⟨h, fun c hc => by rw [h] at hc; cases hc⟩

/-- A demonstration decoder that rejects every macaroon string. -/
def demoDecode : String → Except String MacVal := fun _ => .error "bad macaroon"

theorem c8_new_client_rejects_bad_macaroon_witness :
    NewClient demoDecode "u" "zz" "" = .error "bad macaroon" :=
  (c8_new_client_rejects_bad_macaroon demoDecode "u" "zz" "" "bad macaroon"
    (by decide) rfl).1

/-! ## Nonce monotonicity machinery (C1, C4) -/

/-- The nonce caveat value a call to `graphQLCore.do` attaches, if the call
reaches the attenuation step: when `jwt` is empty and both `json.Marshal`
and `http.NewRequest` succeed, the counter is incremented and the
incremented value is passed to `auth.AddNonce`; otherwise no nonce is
attached. -/
def attachedNonce (env : DoEnv) (c : CoreState) (r : Request) : Option Int :=
  match env.marshal r with
  | .error _ => none
  | .ok reqJSON =>
    match env.newRequestFails c.url reqJSON with
    | some _ => none
    | none => if c.jwt = "" then some (wrap64 (c.nonce + 1)) else none

/-- The nonce values attached across a sequence of calls to
`graphQLCore.do` on one core instance, in call order, with the state
threaded through `graphQLCore_do` itself. -/
def runAttached : List (DoEnv × Request) → CoreState → CoreState × List Int
  | [], c => (c, [])
  | (env, r) :: rest, c =>
    match attachedNonce env c r with
    | some n =>
      ((runAttached rest (graphQLCore_do env c r).1).1,
        n :: (runAttached rest (graphQLCore_do env c r).1).2)
    | none => runAttached rest (graphQLCore_do env c r).1

theorem wrap64_eq_self (n : Int) (h0 : 0 ≤ n) (h1 : n < 2 ^ 63) :
    wrap64 n = n := by
  have h63 : (2 : Int) ^ 63 = 9223372036854775808 := by norm_num
  have h64 : (2 : Int) ^ 64 = 18446744073709551616 := by norm_num
  unfold wrap64
  rw [h63, h64] at *
  rw [Int.emod_eq_of_lt (by omega) (by omega)]
  omega

/-- The value of any attached nonce caveat: the freshly incremented
counter. -/
theorem attachedNonce_eq (env : DoEnv) (c : CoreState) (r : Request)
    (n : Int) (h : attachedNonce env c r = some n) :
    n = wrap64 (c.nonce + 1) := by
  rcases hm : env.marshal r with e | rj
  · simp [attachedNonce, hm] at h
  · rcases hq : env.newRequestFails c.url rj with _ | e2
    · by_cases hj : c.jwt = ""
      · simp [attachedNonce, hm, hq, hj] at h
        exact h.symm
      · simp [attachedNonce, hm, hq, hj] at h
    · simp [attachedNonce, hm, hq] at h

/-- The state `graphQLCore.do`'s request-building phase leaves behind: the
nonce is incremented exactly when the call reaches the attenuation step
(the attached value is the new counter value), and nothing else changes. -/
theorem graphQLCore_buildRequest_fst (env : DoEnv) (c : CoreState) (r : Request) :
    (graphQLCore_buildRequest env c r).1 =
      match attachedNonce env c r with
      | some n => { c with nonce := n }
      | none => c := by
  rcases hm : env.marshal r with e | rj
  · simp [graphQLCore_buildRequest, attachedNonce, hm]
  · rcases hq : env.newRequestFails c.url rj with _ | e2
    · by_cases hj : c.jwt = ""
      · rcases ha : env.addNonce c.macaroon (wrap64 (c.nonce + 1)) with e | m
        · simp [graphQLCore_buildRequest, attachedNonce, hm, hq, hj, ha]
        · rcases ht : env.addCurrentTime m with e | m2
          · simp [graphQLCore_buildRequest, attachedNonce, hm, hq, hj, ha, ht]
          · rcases he : env.encodeMacaroon m2 with e | tok <;>
              simp [graphQLCore_buildRequest, attachedNonce, hm, hq, hj, ha, ht, he]
      · simp [graphQLCore_buildRequest, attachedNonce, hm, hq, hj]
    · simp [graphQLCore_buildRequest, attachedNonce, hm, hq]

/-- `graphQLCore.do` returns the state its request-building phase
produced; sending and response handling never touch it. -/
theorem graphQLCore_do_fst (env : DoEnv) (c : CoreState) (r : Request) :
    (graphQLCore_do env c r).1 = (graphQLCore_buildRequest env c r).1 := by
  unfold graphQLCore_do
  rcases h : graphQLCore_buildRequest env c r with ⟨c', res⟩
  rcases res with e | q
  · rfl
  · rcases hs : env.send q with e2 | resp <;> simp [hs]

/-- Combined state lemma for one call to `graphQLCore.do`. -/
theorem graphQLCore_do_state (env : DoEnv) (c : CoreState) (r : Request) :
    (graphQLCore_do env c r).1 =
      match attachedNonce env c r with
      | some n => { c with nonce := n }
      | none => c := by
  rw [graphQLCore_do_fst, graphQLCore_buildRequest_fst]

/-- Strict monotonicity of the attached nonces over any call sequence, from
any state with empty jwt whose counter cannot overflow within the
sequence. -/
theorem runAttached_mono (calls : List (DoEnv × Request)) :
    ∀ c : CoreState, c.jwt = "" → 0 ≤ c.nonce →
    c.nonce + calls.length < 2 ^ 63 →
    List.Pairwise (· < ·) (runAttached calls c).2 ∧
      ∀ x ∈ (runAttached calls c).2, c.nonce < x := by
  induction calls with
  | nil => intro c _ _ _; simp [runAttached]
  | cons p rest ih =>
    obtain ⟨env, r⟩ := p
    intro c hj h0 hlt
    have hlt' : c.nonce + (rest.length : Int) + 1 < 2 ^ 63 := by
      simp only [List.length_cons] at hlt
      push_cast at hlt
      omega
    rcases ha : attachedNonce env c r with _ | n
    · have hst : (graphQLCore_do env c r).1 = c := by
        rw [graphQLCore_do_state, ha]
      have := ih c hj h0 (by omega)
      simp only [runAttached, ha, hst]
      exact this
    · have hn : n = c.nonce + 1 := by
        have := attachedNonce_eq env c r n ha
        rw [wrap64_eq_self (c.nonce + 1) (by omega) (by omega)] at this
        exact this
      have hst : (graphQLCore_do env c r).1 = { c with nonce := n } := by
        rw [graphQLCore_do_state, ha]
      have hrec := ih { c with nonce := n } hj
        (by show (0 : Int) ≤ n; omega)
        (by show n + (rest.length : Int) < 2 ^ 63; omega)
      simp only [runAttached, ha, hst]
      refine ⟨List.pairwise_cons.mpr ⟨fun x hx => ?_, hrec.1⟩, fun x hx => ?_⟩
      · have hx2 : n < x := hrec.2 x hx
        omega
      · rcases List.mem_cons.mp hx with hx | hx
        · omega
        · have hx2 : n < x := hrec.2 x hx
          omega

/-- C1: on one `graphQLCore` instance freshly constructed with an empty
jwt, every call that reaches the attenuation step increments the counter by
one and attaches the incremented value, so across any call sequence (of
realizable length for the `int64` counter) the attached nonce values are
strictly increasing and no value is ever reused. -/
theorem c1_nonce_strictly_increasing
    (decode : String → Except String MacVal) (url mac : String)
    (c0 : CoreState) (calls : List (DoEnv × Request))
    (hinit : NewClient decode url mac "" = .ok c0)
    (hlen : calls.length < 2 ^ 63) :
    List.Pairwise (· < ·) (runAttached calls c0).2 ∧
      (runAttached calls c0).2.Nodup := by
  have hc0 : c0.nonce = 0 ∧ c0.jwt = "" := by
    unfold NewClient at hinit
    by_cases h : mac = ""
    · rw [if_neg (by simp [h])] at hinit
      cases hinit
      exact ⟨rfl, rfl⟩
    · rw [if_pos h] at hinit
      rcases hd : decode mac with e | m <;> rw [hd] at hinit
      · cases hinit
      · cases hinit
        exact ⟨rfl, rfl⟩
  have hlt : c0.nonce + (calls.length : Int) < 2 ^ 63 := by
    rw [hc0.1, zero_add]
    exact_mod_cast hlen
  have hmono := runAttached_mono calls c0 hc0.2 (by rw [hc0.1]) hlt
  exact ⟨hmono.1, hmono.1.imp ne_of_lt⟩

/-- The fresh core state produced for the C1 witness. -/
def c1InitState : CoreState := ⟨"u", none, 0, ""⟩

/-- Two successful calls for the C1 witness. -/
def c1Calls : List (DoEnv × Request) := [(demoEnv, demoReq), (demoEnv, demoReq)]

theorem c1_nonce_strictly_increasing_witness :
    List.Pairwise (· < ·) (runAttached c1Calls c1InitState).2 ∧
      (runAttached c1Calls c1InitState).2.Nodup :=
  c1_nonce_strictly_increasing demoDecode "u" "" c1InitState c1Calls rfl
    (by norm_num [c1Calls])

/-- C4: in the capability-token variant, when the call reaches the
attenuation step and then any of adding the nonce caveat, adding the
current-time caveat or encoding the macaroon fails, `graphQLCore.do`
returns the wrapped error and leaves the nonce counter incremented (the
increment is not rolled back). -/
theorem c4_failed_derivation_keeps_increment
    (env : DoEnv) (c : CoreState) (r : Request) (j : Bytes) (e : String)
    (m1 m2 : MacVal)
    (hj : c.jwt = "") (hm : env.marshal r = .ok j)
    (hq : env.newRequestFails c.url j = none) :
    (env.addNonce c.macaroon (wrap64 (c.nonce + 1)) = .error e →
      graphQLCore_do env c r = ({ c with nonce := wrap64 (c.nonce + 1) },
        .error ("failed to add nonce to macaroon: " ++ e)))
    ∧ (env.addNonce c.macaroon (wrap64 (c.nonce + 1)) = .ok m1 →
      env.addCurrentTime m1 = .error e →
      graphQLCore_do env c r = ({ c with nonce := wrap64 (c.nonce + 1) },
        .error ("failed to add current time to macaroon: " ++ e)))
    ∧ (env.addNonce c.macaroon (wrap64 (c.nonce + 1)) = .ok m1 →
      env.addCurrentTime m1 = .ok m2 →
      env.encodeMacaroon m2 = .error e →
      graphQLCore_do env c r = ({ c with nonce := wrap64 (c.nonce + 1) },
        .error ("failed to encode macaroon: " ++ e))) := by
  refine ⟨fun h1 => ?_, fun h1 h2 => ?_, fun h1 h2 h3 => ?_⟩
  · simp [graphQLCore_do, graphQLCore_buildRequest, hm, hq, hj, h1]
  · simp [graphQLCore_do, graphQLCore_buildRequest, hm, hq, hj, h1, h2]
  · simp [graphQLCore_do, graphQLCore_buildRequest, hm, hq, hj, h1, h2, h3]

/-- An environment whose macaroon attenuation fails, for the C4 witness. -/
def c4FailNonceEnv : DoEnv := { demoEnv with addNonce := fun _ _ => .error "nope" }

theorem c4_failed_derivation_keeps_increment_witness :
    graphQLCore_do c4FailNonceEnv ⟨"u", some (.root 0), 0, ""⟩ demoReq =
      (⟨"u", some (.root 0), 1, ""⟩,
        .error "failed to add nonce to macaroon: nope") := by
  have h := (c4_failed_derivation_keeps_increment c4FailNonceEnv
    ⟨"u", some (.root 0), 0, ""⟩ demoReq [7] "nope" (.root 1) (.root 1)
    rfl rfl rfl).1 rfl
  have hw : wrap64 (0 + 1) = 1 := by norm_num [wrap64]
  rw [hw] at h
  exact h

/-! ## Operation layer (C9, C10) -/

/-- Opaque stand-in for the external `decimal.Decimal` type (arbitrary
precision, marshalled as a string; never computed with by the client). -/
structure Dec where
  val : Int
deriving DecidableEq, Repr

/-- `Account` from query_accounts.go. -/
structure Account where
  asset : String
  address : String
  available : Dec
  estimation : Dec
  freezed : Dec
  pending : Dec
deriving DecidableEq, Repr

/-- The anonymous response struct of `Client.Accounts`: the embedded
`responseBase` plus `Data.Accounts`. -/
structure AccountsResp where
  errors : List ResponseError
  accounts : List Account
deriving DecidableEq, Repr

/-- `Order` from client.go. -/
structure Order where
  id : Int
  status : String
  amount : Dec
  price : Dec
  dealMoney : Dec
  dealStock : Dec
  left : Dec
deriving DecidableEq, Repr

/-- The anonymous response struct of `Client.Order`: the embedded
`responseBase` plus `Data.Order`. -/
structure OrderResp where
  errors : List ResponseError
  order : Order
deriving DecidableEq, Repr

/-- The Go zero value `Order\x7b\x7d`. -/
def orderZero : Order := ⟨0, "", ⟨0⟩, ⟨0⟩, ⟨0⟩, ⟨0⟩, ⟨0⟩⟩

/-- The tail of `Client.Accounts` (query_accounts.go lines 61-67), after the
response body has been decoded into `resp`: when the envelope carries
errors, the decoded `resp.Data.Accounts` is returned alongside the wrapped
exchange error; otherwise it is returned with no error. -/
def clientAccounts_finish (resp : AccountsResp) : List Account × Option String :=
  match responseBase_Error resp.errors with
  | some e => (resp.accounts, some ("exchange error: " ++ e))
  | none => (resp.accounts, none)

/-- The tail of `Client.Order` (client.go lines 374-379), after the response
body has been decoded into `resp`: when the envelope carries errors, the
zero value `Order\x7b\x7d` is returned alongside the wrapped exchange
error — the decoded `resp.Data.Order` is discarded; otherwise the decoded
order is returned with no error. -/
def clientOrder_finish (resp : OrderResp) : Order × Option String :=
  match responseBase_Error resp.errors with
  | some e => (orderZero, some ("exchange error: " ++ e))
  | none => (resp.order, none)

/-- A decoded `Client.Order` response carrying both a populated `data`
value and a non-empty `errors` list. -/
def c9Resp : OrderResp :=
  ⟨[⟨"boom", []⟩], ⟨7, "pending", ⟨1⟩, ⟨2⟩, ⟨3⟩, ⟨4⟩, ⟨5⟩⟩⟩

/-- C9 counterexample: on a response body carrying both a populated `data`
value (order id 7) and a non-empty `errors` list, `Client.Order` returns a
non-nil error but the ZERO `Order` value, not the populated decoded
structure — refuting the claim that every operation returns the populated
result alongside the error. -/
theorem c9_order_zeroed_on_error :
    (clientOrder_finish c9Resp).2 = some "exchange error: boom"
    ∧ (clientOrder_finish c9Resp).1 = orderZero
    ∧ c9Resp.order.id = 7
    ∧ orderZero.id = 0 :=
  ⟨rfl, rfl, rfl, rfl⟩

/-- C9 (amended): for the operations that do surface partial data (e.g.
`Client.Accounts`), decoding a response body containing both a data value
and a non-empty errors list yields a non-nil error AND the populated
decoded result alongside it. -/
theorem c9_accounts_partial_data_on_error
    (resp : AccountsResp) (e : String)
    (h : responseBase_Error resp.errors = some e) :
    clientAccounts_finish resp = (resp.accounts, some ("exchange error: " ++ e)) := by
  simp [clientAccounts_finish, h]

/-- A decoded `Client.Accounts` response carrying both a populated `data`
value and a non-empty `errors` list. -/
def c9AccResp : AccountsResp :=
  ⟨[⟨"boom", []⟩], [⟨"BTC", "addr", ⟨1⟩, ⟨2⟩, ⟨3⟩, ⟨4⟩⟩]⟩

theorem c9_accounts_partial_data_on_error_witness :
    clientAccounts_finish c9AccResp =
      ([⟨"BTC", "addr", ⟨1⟩, ⟨2⟩, ⟨3⟩, ⟨4⟩⟩], some ("exchange error: " ++ "boom")) :=
  c9_accounts_partial_data_on_error c9AccResp "boom" rfl

/-- `Ticker` from client.go. -/
structure Ticker where
  market : String
  last : Dec
  changeLast : Dec
deriving DecidableEq, Repr

/-- The anonymous response struct of `Client.Tickers`: the embedded
`responseBase` plus `Data.Markets`. -/
structure TickersResp where
  errors : List ResponseError
  markets : List Ticker
deriving DecidableEq, Repr

/-- The static query document of `Client.Tickers`. -/
def tickersQuery : String :=
  "\n\t\tquery GetMarketInfo($markets: [Market!]) \x7b\n\t\t\tmarkets(markets: $markets) \x7b\n\t\t\t\tmarket\n\t\t\t\tlast\n\t\t\t\tchangeLast\n\t\t\t\x7d\n\t\t\x7d\n\t"

/-- `Client.Tickers` (client.go lines 94-136), with the core's `do` and
`json.Unmarshal` passed as collaborators: an empty markets list is rejected
up front; otherwise the request is built and sent, the body decoded, and
the envelope errors surfaced. -/
def clientTickers
    (doFn : CoreState → Request → CoreState × Except String Bytes)
    (unmarshalTickers : Bytes → Except String TickersResp)
    (c : CoreState) (markets : List String) :
    CoreState × (List Ticker × Option String) :=
  if markets.length = 0 then
    (c, ([], some "not empty markets expected"))
  else
    match doFn c ⟨tickersQuery, .tickersVars markets⟩ with
    | (c1, .error e) => (c1, ([], some ("failed to do request: " ++ e)))
    | (c1, .ok body) =>
      match unmarshalTickers body with
      | .error e => (c1, ([], some ("failed to json.Unmarshal resp: " ++ e)))
      | .ok resp =>
        match responseBase_Error resp.errors with
        | some e => (c1, ([], some ("exchange error: " ++ e)))
        | none => (c1, (resp.markets, none))

/-- C10: `Tickers` with an empty markets list returns the error
`"not empty markets expected"` immediately: the result is the same for
every transport `doFn` and decoder (so neither is invoked, no request is
serialized or sent) and the returned client state is the input state
unchanged (in particular the nonce counter). -/
theorem c10_tickers_empty_markets_short_circuit
    (doFn : CoreState → Request → CoreState × Except String Bytes)
    (unmarshalTickers : Bytes → Except String TickersResp) (c : CoreState) :
    clientTickers doFn unmarshalTickers c [] =
      (c, ([], some "not empty markets expected")) :=
  rfl

end BitlumClient
